import Mathlib

/-!
Verification of the tldev-backend scheduling/idempotency core.

The definitions below are a shallow embedding of the TypeScript source:

* the "random" daily-push cron (src/unnamed/part_006): IST clock
  conversion, the 8 AM - 1 AM notification window, slot resolution,
  the string-hash seed, the seeded selection, and the dispatch handler
  over an explicit database state;
* the half-hourly daily-push cron (src/app/api/cron/send-daily-push/route.ts):
  its slot computation and its catch-block `updateMany`;
* the AI duplicate-drop pass (src/lib/ai.ts);
* the enrichment stage (src/app/api/jobs/enrich-tip/route.ts);
* the engagement endpoints (src/app/api/tips/[id]/route.ts and
  src/app/api/tips/[id]/action/route.ts) and the feed filter
  (src/app/api/tips/route.ts).

JavaScript 32-bit integer coercion is modelled with explicit `% 2 ^ 32`
arithmetic on `Int`; `Math.sin`-based pseudo-randomness is modelled over
the reals (the fractional-part construction used by the source), so the
selection function is noncomputable while every state-manipulating
definition stays executable.  Timestamps (`startedAt`, `finishedAt`) and
log output are omitted: no claim mentions them.
-/

namespace TlDev

/-! ## IST clock conversion (src/unnamed/part_006, getISTDateTime) -/

/-- UTC wall-clock instant, minute granularity, as read from `new Date()`:
`getUTCFullYear / getUTCMonth + 1 / getUTCDate / getUTCHours / getUTCMinutes`. -/
structure UTCNow where
  year : Int
  month : Int
  day : Int
  hours : Int
  minutes : Int
deriving Repr, DecidableEq

/-- Result of `getISTDateTime`. -/
structure ISTNow where
  hours : Int
  minutes : Int
  dateString : String
deriving Repr, DecidableEq

/-- Gregorian leap-year rule, as implemented by the JavaScript `Date`
normalisation that `setUTCDate(getUTCDate() + 1)` relies on. -/
def isLeapYear (y : Int) : Bool :=
  (y % 4 == 0 && y % 100 != 0) || (y % 400 == 0)

/-- Days in a Gregorian month. -/
def daysInMonth (y m : Int) : Int :=
  if m == 2 then (if isLeapYear y then 29 else 28)
  else if m == 4 || m == 6 || m == 9 || m == 11 then 30
  else 31

/-- Advance a Gregorian calendar date by one day
(the effect of `setUTCDate(getUTCDate() + 1)`). -/
def nextDate (y m d : Int) : Int × Int × Int :=
  if d < daysInMonth y m then (y, m, d + 1)
  else if m < 12 then (y, m + 1, 1)
  else (y + 1, 1, 1)

/-- Two-digit zero padding, `String(x).padStart(2, "0")`. -/
def pad2 (n : Int) : String :=
  if n < 10 then "0" ++ toString n else toString n

/-- Format `YYYY-MM-DD` exactly as the template literal in the source. -/
def formatDate (y m d : Int) : String :=
  toString y ++ "-" ++ pad2 m ++ "-" ++ pad2 d

/-- IST timezone offset constants from the source. -/
def IST_OFFSET_HOURS : Int := 5

/-- Minute component of the IST offset. -/
def IST_OFFSET_MINUTES : Int := 30

/-- The function `getISTDateTime` from src/unnamed/part_006 lines 54-86: add 5 h 30 min
to the UTC clock, carry minutes into hours and hours into a day offset,
and render the (possibly advanced) calendar date of the instant itself. -/
def getISTDateTime (now : UTCNow) : ISTNow :=
  let istMinutes0 := now.minutes + IST_OFFSET_MINUTES
  let istHours0 := now.hours + IST_OFFSET_HOURS
  let (istMinutes, istHours1) :=
    if istMinutes0 ≥ 60 then (istMinutes0 - 60, istHours0 + 1) else (istMinutes0, istHours0)
  let (istHours, dayOffset) :=
    if istHours1 ≥ 24 then (istHours1 - 24, (1 : Int)) else (istHours1, 0)
  let (y, m, d) :=
    if dayOffset > 0 then nextDate now.year now.month now.day
    else (now.year, now.month, now.day)
  { hours := istHours, minutes := istMinutes, dateString := formatDate y m d }

/-! ## Notification window and slot resolution (src/unnamed/part_006) -/

/-- Window start hour (8 AM IST). -/
def START_HOUR : Int := 8

/-- Window end hour (1 AM IST, next day). -/
def END_HOUR : Int := 1

/-- Thirty notification slots per day. -/
def TOTAL_NOTIFICATIONS : Int := 30

/-- Seventeen-hour window in minutes. -/
def TOTAL_MINUTES : Int := 17 * 60

/-- Slot duration, `Math.floor(TOTAL_MINUTES / TOTAL_NOTIFICATIONS)` = 34 minutes. -/
def SLOT_DURATION : Int := TOTAL_MINUTES / TOTAL_NOTIFICATIONS

/-- The function `getSlotIndex` from src/unnamed/part_006 lines 90-106: minutes since
8 AM (wrapping hours 0-1 into the previous evening), divided by the slot
duration, clamped to the last slot; `-1` outside the window. -/
def getSlotIndex (hour minute : Int) : Int :=
  if hour ≥ START_HOUR then
    min (((hour - START_HOUR) * 60 + minute) / SLOT_DURATION) (TOTAL_NOTIFICATIONS - 1)
  else if hour ≤ END_HOUR then
    min (((24 - START_HOUR + hour) * 60 + minute) / SLOT_DURATION) (TOTAL_NOTIFICATIONS - 1)
  else
    -1

/-- The window check `isWithinNotificationWindow` from src/unnamed/part_006 lines 109-113. -/
def isWithinNotificationWindow (hour : Int) : Bool :=
  hour ≥ START_HOUR || hour ≤ END_HOUR

/-! ## Seeded selection (src/unnamed/part_006, seededRandom / createSeed) -/

/-- JavaScript `ToInt32` (the effect of `x | 0`, `x & x`, and 32-bit shifts). -/
def toInt32 (n : Int) : Int :=
  (n + 2 ^ 31) % 2 ^ 32 - 2 ^ 31

/-- One step of the `createSeed` loop:
`hash = (hash << 5) - hash + char; hash = hash & hash`. -/
def seedStep (hash : Int) (c : Char) : Int :=
  toInt32 (toInt32 (hash * 32) - hash + c.toNat)

/-- The hash `createSeed` from src/unnamed/part_006 lines 42-51: polynomial rolling
hash of `"<date>-<slot>"` over UTF-16 code units, then `Math.abs`. -/
def createSeed (dateString : String) (slot : Int) : Int :=
  |((dateString ++ "-" ++ toString slot).data.foldl seedStep 0)|

/-- The transform `seededRandom` from src/unnamed/part_006 lines 36-39:
`Math.sin(seed) * 10000` minus its floor, i.e. the fractional part,
modelled over the reals. -/
noncomputable def seededRandom (seed : Int) : ℝ :=
  Int.fract (Real.sin seed * 10000)

/-- The selection made at src/unnamed/part_006 lines 224-227:
`Math.floor(seededRandom(createSeed(today, slot)) * allTips.length)`. -/
noncomputable def selectIndex (dateString : String) (slot : Int) (len : ℕ) : Int :=
  ⌊seededRandom (createSeed dateString slot) * len⌋

/-! ## Data model (prisma schema, as used by the routes) -/

/-- Tip lifecycle status. -/
inductive TipStatus where
  | draft
  | published
deriving Repr, DecidableEq

/-- Enrichment image blob (`{ url, attribution... }`); the attribution
metadata is irrelevant to every claim and collapsed into one field. -/
structure Image where
  url : String
deriving Repr, DecidableEq

/-- View-more link blob (`{ url, title, snippet, source }`), collapsed. -/
structure ViewMore where
  url : String
deriving Repr, DecidableEq

/-- A Tip record with the fields the verified routes read or write. -/
structure Tip where
  id : String
  tipText : String
  tipSummary : String
  tipDetail : String
  codeSnippet : String
  category : String
  tags : List String
  image : Option Image
  viewMore : Option ViewMore
  likesCount : Int
  savesCount : Int
  sharesCount : Int
  viewsCount : Int
  status : TipStatus
  source : String
  aiModel : String
deriving Repr, DecidableEq

/-- Placeholder used only to give JavaScript array indexing a total
Lean counterpart; every dereference is guarded by an in-range proof. -/
def defaultTip : Tip :=
  ⟨"", "", "", "", "", "", [], none, none, 0, 0, 0, 0, .draft, "", ""⟩

/-- A User record (id and push token are all the dispatcher reads). -/
structure User where
  id : String
  email : String
  pushToken : Option String
deriving Repr, DecidableEq

/-- An Action record: (user, tip, kind), unique on the triple. -/
structure ActionRow where
  userId : String
  tipId : String
  actionType : String
deriving Repr, DecidableEq

/-- DailyPush ledger lifecycle status. -/
inductive PushStatus where
  | sending
  | completed
  | failed
deriving Repr, DecidableEq

/-- A DailyPush ledger row, unique on `(date, hour)`; the `hour` column
stores the slot index (source comment: "Using 'hour' field to store slot
index for backwards compatibility"). -/
structure PushRow where
  date : String
  hour : Int
  tipId : String
  tipCount : ℕ
  status : PushStatus
  sentCount : ℕ
  errorCount : ℕ
deriving Repr, DecidableEq

/-- The durable store: every record collection the verified routes touch. -/
structure DB where
  tips : List Tip
  users : List User
  actions : List ActionRow
  dailyPushes : List PushRow
deriving Repr, DecidableEq

/-! ## Dispatch stage (src/unnamed/part_006, GET handler after auth) -/

/-- Ledger lookup, `prisma.dailyPush.findUnique` by the unique (date, hour) key. -/
def findPush (db : DB) (date : String) (slot : Int) : Option PushRow :=
  db.dailyPushes.find? fun r => r.date == date && r.hour == slot

/-- The `prisma.dailyPush.upsert` at lines 234-253: create a `sending` row
capturing the selection, or reset an existing non-completed row to
`sending` (the update branch only touches `status` and `startedAt`). -/
def upsertSending (db : DB) (date : String) (slot : Int) (tipId : String)
    (tipCount : ℕ) : DB :=
  if (findPush db date slot).isSome then
    { db with
        dailyPushes := db.dailyPushes.map fun r =>
          if r.date == date && r.hour == slot then { r with status := .sending } else r }
  else
    { db with
        dailyPushes :=
          ⟨date, slot, tipId, tipCount, .sending, 0, 0⟩ :: db.dailyPushes }

/-- The no-users completion update at lines 268-276 (`sentCount: 0`). -/
def completeNoUsers (db : DB) (date : String) (slot : Int) : DB :=
  { db with
      dailyPushes := db.dailyPushes.map fun r =>
        if r.date == date && r.hour == slot then
          { r with status := .completed, sentCount := 0 }
        else r }

/-- The aggregate completion update at lines 348-367. -/
def completeWith (db : DB) (date : String) (slot : Int) (sent errs : ℕ) : DB :=
  { db with
      dailyPushes := db.dailyPushes.map fun r =>
        if r.date == date && r.hour == slot then
          { r with status := .completed, sentCount := sent, errorCount := errs }
        else r }

/-- Outcome of one dispatch invocation, mirroring the JSON responses. -/
inductive DispatchResult where
  | outsideWindow
  | alreadySent (sentCount errorCount : ℕ) (tipId : String)
  | noTips
  | noUsers (tipId : String)
  | success (tipId : String) (sentCount errorCount : ℕ)
deriving Repr, DecidableEq

/-- The send loop at lines 306-345, parameterised by the push collaborator:
`valid` is `Expo.isExpoPushToken`, `sendOk` tells whether the returned
ticket has `status === "ok"`.  Returns `(sentCount, errorCount, calls)`
where `calls` counts invocations of the send collaborator (tokens that
fail validation are counted as errors without a call, exactly as the
`continue` branch does). -/
def sendLoop (valid sendOk : String → Bool) : List User → ℕ × ℕ × ℕ
  | [] => (0, 0, 0)
  | u :: us =>
    let rest := sendLoop valid sendOk us
    match u.pushToken with
    | none => (rest.1, rest.2.1 + 1, rest.2.2)
    | some t =>
      if valid t then
        if sendOk t then (rest.1 + 1, rest.2.1, rest.2.2 + 1)
        else (rest.1, rest.2.1 + 1, rest.2.2 + 1)
      else (rest.1, rest.2.1 + 1, rest.2.2)

/-- Everything after the tip selection (src/unnamed/part_006 lines
234-388): upsert the `sending` row capturing the selection, then either
complete immediately (no users with tokens, lines 266-289) or run the
send loop and record the aggregate counts. -/
def dispatchSend (valid sendOk : String → Bool) (today : String) (slot : Int)
    (tipId : String) (tipCount : ℕ) (db : DB) : DispatchResult × DB × ℕ :=
  let db2 := upsertSending db today slot tipId tipCount
  let users := db2.users.filter fun u => u.pushToken.isSome
  if users.isEmpty then
    (.noUsers tipId, completeNoUsers db2 today slot, 0)
  else
    let agg := sendLoop valid sendOk users
    (.success tipId agg.1 agg.2.1, completeWith db2 today slot agg.1 agg.2.1, agg.2.2)

/-- The work the handler performs once the completed-ledger check has
fallen through (src/unnamed/part_006 lines 196-388): fetch published
tips, bail out if none, select the seeded tip, then record and send. -/
noncomputable def dispatchWork (valid sendOk : String → Bool) (today : String)
    (slot : Int) (db : DB) : DispatchResult × DB × ℕ :=
  let allTips := db.tips.filter fun t => t.status == TipStatus.published
  if allTips.isEmpty then (.noTips, db, 0)
  else
    let randomIndex := (selectIndex today slot allTips.length).toNat
    let tipToSend := allTips.getD randomIndex defaultTip
    dispatchSend valid sendOk today slot tipToSend.id allTips.length db

/-- The dispatch handler of src/unnamed/part_006 (GET, after the
`CRON_SECRET` check, which touches no state): window check, then the
idempotency check against the `(date, slot)` ledger row, then the work. -/
noncomputable def dispatchRandom (valid sendOk : String → Bool)
    (hour minute : Int) (today : String) (db : DB) : DispatchResult × DB × ℕ :=
  if !isWithinNotificationWindow hour then (.outsideWindow, db, 0)
  else
    let slot := getSlotIndex hour minute
    match findPush db today slot with
    | some row =>
      if row.status == PushStatus.completed then
        (.alreadySent row.sentCount row.errorCount row.tipId, db, 0)
      else dispatchWork valid sendOk today slot db
    | none => dispatchWork valid sendOk today slot db

/-! ## Half-hourly variant (src/app/api/cron/send-daily-push/route.ts) -/

/-- Slot computation of the half-hourly variant (its own `getSlotIndex`, route.ts lines 96-100):
two slots per hour counted from 6 AM. -/
def getSlotIndexHalfHourly (hour minute : Int) : Int :=
  (hour - 6) * 2 + (if minute ≥ 30 then 1 else 0)

/-- The catch-block `prisma.dailyPush.updateMany` of the daily-push
crons: mark every row matching `(date, hourKey)` that is still `sending`
as `failed`.  The random variant passes the slot index as `hourKey`
(src/unnamed/part_006 line 394); the half-hourly variant passes the IST
clock hour (route.ts line 389) although its ledger rows are keyed by the
slot index. -/
def markFailed (db : DB) (date : String) (hourKey : Int) : DB :=
  { db with
      dailyPushes := db.dailyPushes.map fun r =>
        if r.date == date && r.hour == hourKey && r.status == PushStatus.sending then
          { r with status := .failed }
        else r }

/-! ## AI duplicate-drop pass (src/lib/ai.ts, generateTips lines 289-323) -/

/-- A generated tip, projected to the three declared uniqueness keys the
validation pass reads (the remaining fields are copied through verbatim
and play no role in the drop decision). -/
structure GenTip where
  unique_topic : String
  primary_tech : String
  headline_pattern : String
deriving Repr, DecidableEq

/-- JavaScript `toLowerCase()`, modelled as a per-character lowering
(the uniqueness keys are ASCII slugs, on which this coincides). -/
def toLowerStr (s : String) : String :=
  ⟨s.data.map Char.toLower⟩

/-- The loop body of the validation pass: a tip is dropped iff its
lowercased topic slug or its lowercased primary technology was already
seen; all three lowercased keys of a kept tip are then recorded — the
pattern set is recorded but never consulted, exactly as in the source. -/
def dedupGo (seenTopics seenTechs seenPats : List String) :
    List GenTip → List GenTip
  | [] => []
  | t :: ts =>
    let topicLower := toLowerStr t.unique_topic
    let techLower := toLowerStr t.primary_tech
    let patternLower := toLowerStr t.headline_pattern
    if topicLower ∈ seenTopics ∨ techLower ∈ seenTechs then
      dedupGo seenTopics seenTechs seenPats ts
    else
      t :: dedupGo (topicLower :: seenTopics) (techLower :: seenTechs)
          (patternLower :: seenPats) ts

/-- The post-generation validation pass over the AI output. -/
def dedupTips (l : List GenTip) : List GenTip := dedupGo [] [] [] l

/-! ## Enrichment stage (src/app/api/jobs/enrich-tip/route.ts) -/

/-- Outcome of the single-tip enrichment POST. -/
inductive EnrichOutcome where
  | skipped
  | enriched
deriving Repr, DecidableEq

/-- The single-tip enrichment POST (lines 64-100): skip when already
published with an image, otherwise store the fetched image and link
(keeping the previous value when a fetch failed and returned null) and
mark the tip published. -/
def enrichTip (image : Option Image) (viewMore : Option ViewMore) (tip : Tip) :
    EnrichOutcome × Tip :=
  if tip.status == TipStatus.published && tip.image.isSome then
    (.skipped, tip)
  else
    (.enriched,
      { tip with
          image := if image.isSome then image else tip.image,
          viewMore := if viewMore.isSome then viewMore else tip.viewMore,
          status := .published })

/-- Every mutation the repository applies to an existing Tip record:
single-tip enrichment (and its image-only sibling variant), a batch
enrichment item (GET batch: `undefined` keeps the stored value), the
Action-toggle counter co-mutations, and the view-count increment.  Tip
creation (the generate stage) inserts new records and is not a mutation
of an existing one. -/
inductive TipOp where
  | enrich (image : Option Image) (viewMore : Option ViewMore)
  | enrichImageOnly (image : Option Image)
  | enrichBatchItem (image : Option Image)
  | likesDelta (d : Int)
  | savesDelta (d : Int)
  | sharesDelta (d : Int)
  | viewsBump
deriving DecidableEq

/-- Apply one Tip mutation. -/
def applyTipOp : TipOp → Tip → Tip
  | .enrich image viewMore, tip => (enrichTip image viewMore tip).2
  | .enrichImageOnly image, tip =>
    if tip.status == TipStatus.published && tip.image.isSome then tip
    else
      { tip with
          image := if image.isSome then image else tip.image,
          status := .published }
  | .enrichBatchItem image, tip =>
    { tip with
        image := if image.isSome then image else tip.image,
        status := .published }
  | .likesDelta d, tip => { tip with likesCount := tip.likesCount + d }
  | .savesDelta d, tip => { tip with savesCount := tip.savesCount + d }
  | .sharesDelta d, tip => { tip with sharesCount := tip.sharesCount + d }
  | .viewsBump, tip => { tip with viewsCount := tip.viewsCount + 1 }

/-! ## Engagement endpoints (src/app/api/tips/...) -/

/-- Tip lookup, `prisma.tip.findUnique` by id. -/
def findTip (db : DB) (tipId : String) : Option Tip :=
  db.tips.find? fun t => t.id == tipId

/-- Lazy user creation shared by the action routes: create-if-absent
with the synthetic `<id>@anonymous.local` email and no push token. -/
def ensureUser (db : DB) (userId : String) : DB :=
  if db.users.any fun u => u.id == userId then db
  else { db with users := ⟨userId, userId ++ "@anonymous.local", none⟩ :: db.users }

/-- Result of the dedicated share endpoint
(src/app/api/tips/[id]/action/route.ts POST). -/
inductive ShareResult where
  | notFound
  | alreadyShared
  | added
deriving Repr, DecidableEq

/-- The dedicated share endpoint: add-only share — an existing
(user, tip, share) Action short-circuits, otherwise the Action is
created and `sharesCount` incremented. -/
def sharePost (db : DB) (userId tipId : String) : ShareResult × DB :=
  match findTip db tipId with
  | none => (.notFound, db)
  | some _ =>
    let db1 := ensureUser db userId
    match db1.actions.find? fun a =>
        a.userId == userId && a.tipId == tipId && a.actionType == "share" with
    | some _ => (.alreadyShared, db1)
    | none =>
      (.added,
        { db1 with
            actions := ⟨userId, tipId, "share"⟩ :: db1.actions,
            tips := db1.tips.map fun t =>
              if t.id == tipId then { t with sharesCount := t.sharesCount + 1 }
              else t })

/-- The `countField` selection of the toggle endpoint: like touches
`likesCount`, save touches `savesCount`, otherwise `sharesCount`. -/
def counterBump (actionType : String) (d : Int) (t : Tip) : Tip :=
  if actionType == "like" then { t with likesCount := t.likesCount + d }
  else if actionType == "save" then { t with savesCount := t.savesCount + d }
  else { t with sharesCount := t.sharesCount + d }

/-- Result of the toggle endpoint (src/app/api/tips/[id]/route.ts POST). -/
inductive ToggleResult where
  | invalid
  | notFound
  | removed
  | added
deriving Repr, DecidableEq

/-- The toggle endpoint: like, save and share all toggle — an existing
(user, tip, kind) Action is deleted (prisma `delete` by the unique id of
the row `findUnique` returned, i.e. the first key match) and the counter
decremented; otherwise the Action is created and the counter
incremented. -/
def toggleAction (db : DB) (userId tipId actionType : String) : ToggleResult × DB :=
  if !(actionType == "like" || actionType == "save" || actionType == "share") then
    (.invalid, db)
  else
    match findTip db tipId with
    | none => (.notFound, db)
    | some _ =>
      let db1 := ensureUser db userId
      match db1.actions.find? fun a =>
          a.userId == userId && a.tipId == tipId && a.actionType == actionType with
      | some _ =>
        (.removed,
          { db1 with
              actions := db1.actions.eraseP fun a =>
                a.userId == userId && a.tipId == tipId && a.actionType == actionType,
              tips := db1.tips.map fun t =>
                if t.id == tipId then counterBump actionType (-1) t else t })
      | none =>
        (.added,
          { db1 with
              actions := ⟨userId, tipId, actionType⟩ :: db1.actions,
              tips := db1.tips.map fun t =>
                if t.id == tipId then counterBump actionType 1 t else t })

/-- Number of currently existing like Actions for a tip, across users. -/
def likeCount (actions : List ActionRow) (tipId : String) : ℕ :=
  (actions.filter fun a => a.tipId == tipId && a.actionType == "like").length

/-- The like-counter invariant: every stored `likesCount` equals the
number of existing like Actions for that tip. -/
def likeConsistent (db : DB) : Bool :=
  db.tips.all fun t => t.likesCount == (likeCount db.actions t.id : Int)

/-- The tip detail response of src/app/api/tips/[id]/route.ts GET
(the `created_at` timestamp is omitted, like every timestamp here). -/
structure TipDetailResponse where
  id : String
  tip_text : String
  tip_summary : String
  tip_detail : String
  code_snippet : String
  category : String
  tags : List String
  image : Option Image
  likes_count : Int
  saves_count : Int
  views_count : Int
  source : String
  ai_model : String
deriving Repr, DecidableEq

/-- Tip detail GET: read the record (404 when absent, no write), then
increment `viewsCount` and respond with the pre-read fields and
`views_count` equal to the pre-read count plus one. -/
def getTipDetail (db : DB) (tipId : String) : Option TipDetailResponse × DB :=
  match findTip db tipId with
  | none => (none, db)
  | some tip =>
    (some
      { id := tip.id, tip_text := tip.tipText, tip_summary := tip.tipSummary,
        tip_detail := tip.tipDetail, code_snippet := tip.codeSnippet,
        category := tip.category, tags := tip.tags, image := tip.image,
        likes_count := tip.likesCount, saves_count := tip.savesCount,
        views_count := tip.viewsCount + 1, source := tip.source,
        ai_model := tip.aiModel },
      { db with
          tips := db.tips.map fun t =>
            if t.id == tipId then { t with viewsCount := t.viewsCount + 1 }
            else t })

/-- The feed query filter (src/app/api/tips/route.ts GET):
`where: { status: "published" }`. -/
def feedTips (db : DB) : List Tip :=
  db.tips.filter fun t => t.status == TipStatus.published

end TlDev

/-! ## Theorems -/

namespace TlDev

/-- Mapping a key-preserving update over a list commutes with `find?`. -/
theorem find?_map_key {α : Type} (f : α → α) (p : α → Bool)
    (hp : ∀ a, p (f a) = p a) (l : List α) :
    (l.map f).find? p = (l.find? p).map f := by
  induction l with
  | nil => rfl
  | cons a as ih =>
    cases h : p a
    · rw [List.map_cons, List.find?_cons_of_neg _ (by simp [hp, h]),
        List.find?_cons_of_neg _ (by simp [h])]
      exact ih
    · rw [List.map_cons, List.find?_cons_of_pos _ (by simp [hp, h]),
        List.find?_cons_of_pos _ (by simp [h]), Option.map_some']

/-- C2: for every date string, slot and non-empty candidate-list length,
the seeded selection is the same on every evaluation (the embedding is a
pure function, so repeated evaluation is literal equality) and the chosen
index lies in `[0, length - 1]`. -/
theorem c2_select_deterministic_in_range (d : String) (slot : Int) (n : ℕ)
    (hn : 0 < n) :
    selectIndex d slot n = selectIndex d slot n ∧
      0 ≤ selectIndex d slot n ∧ selectIndex d slot n < n := by
  refine ⟨rfl, ?_, ?_⟩
  · apply Int.floor_nonneg.mpr
    exact mul_nonneg (Int.fract_nonneg _) (by positivity)
  · apply Int.floor_lt.mpr
    calc seededRandom (createSeed d slot) * (n : ℝ)
        < 1 * (n : ℝ) := by
          apply mul_lt_mul_of_pos_right (Int.fract_lt_one _)
          exact_mod_cast hn
      _ = ((n : ℤ) : ℝ) := by push_cast; ring

/-- C2 witness: scenario B of the spec, candidate list of 5 tips,
seed built from date `2026-01-31` and slot `3`. -/
theorem c2_select_deterministic_in_range_witness :
    0 < 5 ∧
      (selectIndex "2026-01-31" 3 5 = selectIndex "2026-01-31" 3 5 ∧
        0 ≤ selectIndex "2026-01-31" 3 5 ∧ selectIndex "2026-01-31" 3 5 < (5 : ℕ)) :=
  ⟨by decide, c2_select_deterministic_in_range "2026-01-31" 3 5 (by decide)⟩

/-- C3 (amended): for every instant with IST hour in `[2, 7]`, slot
resolution reports out-of-window (`-1`), the window predicate is false,
and the dispatch invocation returns the out-of-window skip with the
database unchanged and zero send-collaborator calls. -/
theorem c3_outside_window_skips_without_ledger_write
    (valid sendOk : String → Bool) (hour minute : Int) (today : String)
    (db : DB) (h2 : 2 ≤ hour) (h7 : hour ≤ 7) :
    isWithinNotificationWindow hour = false ∧
      getSlotIndex hour minute = -1 ∧
      dispatchRandom valid sendOk hour minute today db =
        (.outsideWindow, db, 0) := by
  have hw : isWithinNotificationWindow hour = false := by
    simp only [isWithinNotificationWindow, START_HOUR, END_HOUR,
      Bool.or_eq_false_iff, decide_eq_false_iff_not]
    omega
  refine ⟨hw, ?_, ?_⟩
  · rw [getSlotIndex, if_neg (by simp only [START_HOUR]; omega),
      if_neg (by simp only [END_HOUR]; omega)]
  · rw [dispatchRandom, hw]
    rfl

/-- C3 witness: IST 03:15 is outside the window. -/
theorem c3_outside_window_skips_without_ledger_write_witness :
    (2 ≤ (3 : Int) ∧ (3 : Int) ≤ 7) ∧
      (isWithinNotificationWindow 3 = false ∧
        getSlotIndex 3 15 = -1 ∧
        dispatchRandom (fun _ => true) (fun _ => true) 3 15 "2026-01-31"
            ⟨[], [], [], []⟩ =
          (.outsideWindow, ⟨[], [], [], []⟩, 0)) :=
  ⟨⟨by decide, by decide⟩,
    c3_outside_window_skips_without_ledger_write _ _ 3 15 "2026-01-31" _
      (by decide) (by decide)⟩

/-- C3 counterexample: the claim also asserts that instants after 1:00 AM
and before 2:00 AM are out-of-window, but at IST 01:30 the window
predicate holds (`hour <= END_HOUR` accepts every minute of hour 1) and
slot resolution clamps to slot 29 instead of reporting out-of-window;
the dispatch handler proceeds past the window check (here to the
no-published-tips branch rather than the out-of-window skip). -/
theorem c3_hour_one_counterexample :
    isWithinNotificationWindow 1 = true ∧
      getSlotIndex 1 30 = 29 ∧
      (dispatchRandom (fun _ => true) (fun _ => true) 1 30 "2026-01-31"
          ⟨[], [], [], []⟩).1 = DispatchResult.noTips := by
  refine ⟨by decide, by decide, ?_⟩
  rfl

/-- C4: evaluation of `getISTDateTime` at the failing input.  The two
instants UTC 2026-01-31 18:25 and 18:50 are IST 23:55 and 00:20, both
inside slot 28 of the window that started 8 AM IST on 2026-01-31; the
code keys the first under `2026-01-31` but the second under
`2026-02-01` — the instant's own IST calendar date, not the date the
window started on — so the post-midnight instant is filed under the new
day, a different ledger key (and a different seed) for the same slot of
the same window. -/
theorem c4_post_midnight_keyed_under_new_date :
    getISTDateTime ⟨2026, 1, 31, 18, 25⟩ =
        { hours := 23, minutes := 55, dateString := "2026-01-31" } ∧
      getISTDateTime ⟨2026, 1, 31, 18, 50⟩ =
        { hours := 0, minutes := 20, dateString := "2026-02-01" } ∧
      getSlotIndex 23 55 = 28 ∧
      getSlotIndex 0 20 = 28 ∧
      ("2026-02-01" : String) ≠ "2026-01-31" := by
  refine ⟨?_, ?_, by decide, by decide, by decide⟩ <;> rfl

/-- Creating the ledger row when the `(date, slot)` key is absent
prepends a fresh `sending` row. -/
theorem upsertSending_of_absent (db : DB) (date : String) (slot : Int)
    (tid : String) (cnt : ℕ) (h : findPush db date slot = none) :
    upsertSending db date slot tid cnt =
      { db with dailyPushes := ⟨date, slot, tid, cnt, .sending, 0, 0⟩ :: db.dailyPushes } := by
  simp [upsertSending, h]

/-- Lookup of the freshly created `sending` row. -/
theorem findPush_upsert_absent (db : DB) (date : String) (slot : Int)
    (tid : String) (cnt : ℕ) (h : findPush db date slot = none) :
    findPush (upsertSending db date slot tid cnt) date slot =
      some ⟨date, slot, tid, cnt, .sending, 0, 0⟩ := by
  rw [upsertSending_of_absent db date slot tid cnt h]
  exact List.find?_cons_of_pos _ (by simp)

/-- The no-users completion update commutes with ledger lookup. -/
theorem findPush_completeNoUsers (db : DB) (date : String) (slot : Int) :
    findPush (completeNoUsers db date slot) date slot =
      (findPush db date slot).map fun r =>
        if r.date == date && r.hour == slot then
          { r with status := .completed, sentCount := 0 }
        else r := by
  unfold completeNoUsers findPush
  exact find?_map_key _ _
    (fun a => by cases h : a.date == date && a.hour == slot <;> simp [h]) _

/-- The aggregate completion update commutes with ledger lookup. -/
theorem findPush_completeWith (db : DB) (date : String) (slot : Int)
    (sent errs : ℕ) :
    findPush (completeWith db date slot sent errs) date slot =
      (findPush db date slot).map fun r =>
        if r.date == date && r.hour == slot then
          { r with status := .completed, sentCount := sent, errorCount := errs }
        else r := by
  unfold completeWith findPush
  exact find?_map_key _ _
    (fun a => by cases h : a.date == date && a.hour == slot <;> simp [h]) _

/-- After the record-and-send phase starting from an absent ledger key,
the `(date, slot)` row exists and its status is `completed`. -/
theorem dispatchSend_completes (valid sendOk : String → Bool) (today : String)
    (slot : Int) (tipId : String) (cnt : ℕ) (db : DB)
    (hnone : findPush db today slot = none) :
    ∃ row, findPush (dispatchSend valid sendOk today slot tipId cnt db).2.1 today slot =
        some row ∧ row.status = PushStatus.completed := by
  have hfind2 := findPush_upsert_absent db today slot tipId cnt hnone
  have hcw : ∀ s e : ℕ,
      findPush (completeWith (upsertSending db today slot tipId cnt) today slot s e)
          today slot = some ⟨today, slot, tipId, cnt, .completed, s, e⟩ := by
    intro s e
    rw [findPush_completeWith, hfind2]
    simp
  have hcn :
      findPush (completeNoUsers (upsertSending db today slot tipId cnt) today slot)
          today slot = some ⟨today, slot, tipId, cnt, .completed, 0, 0⟩ := by
    rw [findPush_completeNoUsers, hfind2]
    simp
  simp only [dispatchSend]
  cases hU : ((upsertSending db today slot tipId cnt).users.filter fun u =>
      u.pushToken.isSome).isEmpty
  · simp only [Bool.false_eq_true, if_false]
    exact ⟨_, hcw _ _, rfl⟩
  · simp only [if_true]
    exact ⟨_, hcn, rfl⟩

/-- The dispatch work phase, run when no ledger row exists and published
tips are available, leaves a `completed` row under the `(date, slot)` key. -/
theorem dispatchWork_completes (valid sendOk : String → Bool) (today : String)
    (slot : Int) (db : DB) (hnone : findPush db today slot = none)
    (htips : (db.tips.filter fun t => t.status == TipStatus.published) ≠ []) :
    ∃ row, findPush (dispatchWork valid sendOk today slot db).2.1 today slot =
        some row ∧ row.status = PushStatus.completed := by
  have hE : (db.tips.filter fun t => t.status == TipStatus.published).isEmpty = false := by
    cases h : db.tips.filter fun t => t.status == TipStatus.published with
    | nil => exact absurd h htips
    | cons a l => rfl
  simp only [dispatchWork, hE, Bool.false_eq_true, if_false]
  exact dispatchSend_completes valid sendOk today slot _ _ db hnone

/-- A `completed` ledger row short-circuits the whole handler: the prior
counts are echoed, the database is untouched and the send collaborator is
never called. -/
theorem dispatch_skip_of_completed (valid sendOk : String → Bool)
    (hour minute : Int) (today : String) (db : DB) (row : PushRow)
    (hw : isWithinNotificationWindow hour = true)
    (hfind : findPush db today (getSlotIndex hour minute) = some row)
    (hst : row.status = PushStatus.completed) :
    dispatchRandom valid sendOk hour minute today db =
      (.alreadySent row.sentCount row.errorCount row.tipId, db, 0) := by
  simp only [dispatchRandom, hw, Bool.not_true, Bool.false_eq_true, if_false,
    hfind, hst]
  rfl

/-- C1: a `completed` DailyPush row for a `(date, slot)` key makes every
invocation of the dispatch stage for that key return the skipped result
carrying the stored counts, with no state change and zero send calls;
and starting from an absent key with published tips available, the first
invocation writes `completed` and the immediately following invocation
skips with zero additional send-collaborator calls. -/
theorem c1_completed_short_circuits_dispatch :
    (∀ (valid sendOk : String → Bool) (hour minute : Int) (today : String)
        (db : DB) (row : PushRow),
        isWithinNotificationWindow hour = true →
        findPush db today (getSlotIndex hour minute) = some row →
        row.status = PushStatus.completed →
        dispatchRandom valid sendOk hour minute today db =
          (.alreadySent row.sentCount row.errorCount row.tipId, db, 0)) ∧
    (∀ (valid sendOk : String → Bool) (hour minute : Int) (today : String)
        (db : DB),
        isWithinNotificationWindow hour = true →
        findPush db today (getSlotIndex hour minute) = none →
        (db.tips.filter fun t => t.status == TipStatus.published) ≠ [] →
        ∃ row,
          findPush (dispatchRandom valid sendOk hour minute today db).2.1 today
              (getSlotIndex hour minute) = some row ∧
          row.status = PushStatus.completed ∧
          dispatchRandom valid sendOk hour minute today
              (dispatchRandom valid sendOk hour minute today db).2.1 =
            (.alreadySent row.sentCount row.errorCount row.tipId,
              (dispatchRandom valid sendOk hour minute today db).2.1, 0)) := by
  constructor
  · intro valid sendOk hour minute today db row hw hfind hst
    exact dispatch_skip_of_completed valid sendOk hour minute today db row hw hfind hst
  · intro valid sendOk hour minute today db hw hnone htips
    have hred : dispatchRandom valid sendOk hour minute today db =
        dispatchWork valid sendOk today (getSlotIndex hour minute) db := by
      simp only [dispatchRandom, hw, Bool.not_true, Bool.false_eq_true, if_false,
        hnone]
    obtain ⟨row, hfind1, hst1⟩ :=
      dispatchWork_completes valid sendOk today (getSlotIndex hour minute) db hnone htips
    rw [← hred] at hfind1
    exact ⟨row, hfind1, hst1,
      dispatch_skip_of_completed valid sendOk hour minute today _ row hw hfind1 hst1⟩

/-- C1 witness: a `completed` row for slot 1 of `2026-01-31` with counts
(3, 1) short-circuits at IST 9:00; and from an absent key with one
published tip, the first invocation completes and the second skips. -/
theorem c1_completed_short_circuits_dispatch_witness :
    (isWithinNotificationWindow 9 = true ∧
      findPush ⟨[], [], [], [⟨"2026-01-31", 1, "tip-a", 5, .completed, 3, 1⟩]⟩
          "2026-01-31" (getSlotIndex 9 0) =
        some (⟨"2026-01-31", 1, "tip-a", 5, .completed, 3, 1⟩ : PushRow) ∧
      dispatchRandom (fun _ => true) (fun _ => true) 9 0 "2026-01-31"
          ⟨[], [], [], [⟨"2026-01-31", 1, "tip-a", 5, .completed, 3, 1⟩]⟩ =
        (.alreadySent 3 1 "tip-a",
          ⟨[], [], [], [⟨"2026-01-31", 1, "tip-a", 5, .completed, 3, 1⟩]⟩, 0)) ∧
    (∃ row,
      findPush (dispatchRandom (fun _ => true) (fun _ => true) 9 0 "2026-01-31"
            ⟨[{ defaultTip with id := "tip-b", status := .published }], [], [], []⟩).2.1
          "2026-01-31" (getSlotIndex 9 0) = some row ∧
        row.status = PushStatus.completed ∧
        dispatchRandom (fun _ => true) (fun _ => true) 9 0 "2026-01-31"
            (dispatchRandom (fun _ => true) (fun _ => true) 9 0 "2026-01-31"
              ⟨[{ defaultTip with id := "tip-b", status := .published }], [], [], []⟩).2.1 =
          (.alreadySent row.sentCount row.errorCount row.tipId,
            (dispatchRandom (fun _ => true) (fun _ => true) 9 0 "2026-01-31"
              ⟨[{ defaultTip with id := "tip-b", status := .published }], [], [], []⟩).2.1,
            0)) :=
  ⟨⟨by decide, by decide,
      c1_completed_short_circuits_dispatch.1 _ _ 9 0 "2026-01-31"
        ⟨[], [], [], [⟨"2026-01-31", 1, "tip-a", 5, .completed, 3, 1⟩]⟩
        ⟨"2026-01-31", 1, "tip-a", 5, .completed, 3, 1⟩
        (by decide) (by decide) rfl⟩,
    c1_completed_short_circuits_dispatch.2 _ _ 9 0 "2026-01-31" _
      (by decide) (by decide) (by decide)⟩

/-- C5: evaluation at the failing input.  At IST 6:00 the half-hourly
handler computes slot 0 and its upsert keys the ledger row as
`(date, 0)` in status `sending`; when the dispatch attempt then throws,
the catch block filters on the clock hour (6) instead of the slot key,
so the row is left in `sending` instead of transitioning to `failed` —
filtering by the slot key, as the random variant does, would mark it
`failed`. -/
theorem c5_catch_filters_clock_hour_not_slot :
    getSlotIndexHalfHourly 6 0 = 0 ∧
      markFailed ⟨[], [], [], [⟨"2026-01-31", 0, "tip-1", 5, .sending, 0, 0⟩]⟩
          "2026-01-31" 6 =
        ⟨[], [], [], [⟨"2026-01-31", 0, "tip-1", 5, .sending, 0, 0⟩]⟩ ∧
      (findPush
            (markFailed ⟨[], [], [], [⟨"2026-01-31", 0, "tip-1", 5, .sending, 0, 0⟩]⟩
              "2026-01-31" 6)
            "2026-01-31" 0).map PushRow.status =
        some PushStatus.sending ∧
      (findPush
            (markFailed ⟨[], [], [], [⟨"2026-01-31", 0, "tip-1", 5, .sending, 0, 0⟩]⟩
              "2026-01-31" 0)
            "2026-01-31" 0).map PushRow.status =
        some PushStatus.failed := by
  refine ⟨by decide, ?_, ?_, ?_⟩ <;> rfl

/-- C6 counterexample: two tips that share a headline pattern but differ
in topic slug and primary technology are both kept by the validation
pass, so the persisted set can contain two tips sharing a headline
pattern — contradicting the claim that a repeat of any of the three keys
is dropped. -/
theorem c6_headline_pattern_repeat_kept :
    dedupTips
        [⟨"rust-wasm", "rust", "How [Company] uses [Tech] to [outcome]"⟩,
          ⟨"kafka-logs", "kafka", "How [Company] uses [Tech] to [outcome]"⟩] =
      [⟨"rust-wasm", "rust", "How [Company] uses [Tech] to [outcome]"⟩,
        ⟨"kafka-logs", "kafka", "How [Company] uses [Tech] to [outcome]"⟩] ∧
      toLowerStr
          (⟨"rust-wasm", "rust", "How [Company] uses [Tech] to [outcome]"⟩ :
            GenTip).headline_pattern =
        toLowerStr
          (⟨"kafka-logs", "kafka", "How [Company] uses [Tech] to [outcome]"⟩ :
            GenTip).headline_pattern ∧
      ("rust-wasm" : String) ≠ "kafka-logs" := by
  refine ⟨?_, rfl, by decide⟩
  decide

/-- A tip kept by the validation pass never carries an already-seen
topic or technology key. -/
theorem dedupGo_not_seen (ts : List GenTip) :
    ∀ (sT sTech sP : List String) (t : GenTip), t ∈ dedupGo sT sTech sP ts →
      toLowerStr t.unique_topic ∉ sT ∧ toLowerStr t.primary_tech ∉ sTech := by
  induction ts with
  | nil => intro sT sTech sP t h; simp [dedupGo] at h
  | cons a as ih =>
    intro sT sTech sP t h
    simp only [dedupGo] at h
    split at h
    · exact ih _ _ _ t h
    · rename_i hcond
      rcases List.mem_cons.mp h with rfl | hmem
      · exact ⟨fun hT => hcond (Or.inl hT), fun hTech => hcond (Or.inr hTech)⟩
      · have hns := ih _ _ _ t hmem
        exact ⟨fun hT => hns.1 (List.mem_cons_of_mem _ hT),
          fun hTech => hns.2 (List.mem_cons_of_mem _ hTech)⟩

/-- The validation pass output has pairwise distinct lowercased topic
slugs and primary technologies. -/
theorem dedupGo_pairwise (ts : List GenTip) :
    ∀ sT sTech sP,
      (dedupGo sT sTech sP ts).Pairwise fun a b =>
        toLowerStr a.unique_topic ≠ toLowerStr b.unique_topic ∧
        toLowerStr a.primary_tech ≠ toLowerStr b.primary_tech := by
  induction ts with
  | nil => intro sT sTech sP; simp [dedupGo]
  | cons a as ih =>
    intro sT sTech sP
    simp only [dedupGo]
    split
    · exact ih _ _ _
    · refine List.Pairwise.cons ?_ (ih _ _ _)
      intro b hb
      have hns := dedupGo_not_seen as _ _ _ b hb
      refine ⟨fun he => hns.1 ?_, fun he => hns.2 ?_⟩
      · rw [← he]; exact List.mem_cons_self _ _
      · rw [← he]; exact List.mem_cons_self _ _

/-- The validation pass output is a subsequence of the AI output. -/
theorem dedupGo_sublist (ts : List GenTip) :
    ∀ sT sTech sP, (dedupGo sT sTech sP ts).Sublist ts := by
  induction ts with
  | nil => intro sT sTech sP; simp [dedupGo]
  | cons a as ih =>
    intro sT sTech sP
    simp only [dedupGo]
    split
    · exact (ih _ _ _).cons _
    · exact (ih _ _ _).cons₂ _

/-- C6 (amended): the validation pass keeps a first-seen-wins
subsequence of the AI output in which no two tips share a lowercased
topic slug or a lowercased primary technology; headline-pattern repeats
are recorded but not dropped. -/
theorem c6_dedup_drops_topic_and_tech_repeats (l : List GenTip) :
    (dedupTips l).Sublist l ∧
      (dedupTips l).Pairwise fun a b =>
        toLowerStr a.unique_topic ≠ toLowerStr b.unique_topic ∧
        toLowerStr a.primary_tech ≠ toLowerStr b.primary_tech :=
  ⟨dedupGo_sublist l [] [] [], dedupGo_pairwise l [] [] []⟩

/-- C7: a draft tip with no image is taken by the enrichment stage to
status published holding exactly the fetched image — non-null on fetch
success, null (its previous value) on fetch failure; and no Tip mutation
in the repository moves a published tip back to draft. -/
theorem c7_enrich_publishes_and_status_never_regresses :
    (∀ (image : Option Image) (viewMore : Option ViewMore) (tip : Tip),
        tip.status = TipStatus.draft → tip.image = none →
        (enrichTip image viewMore tip).2.status = TipStatus.published ∧
          (enrichTip image viewMore tip).2.image = image) ∧
    (∀ (op : TipOp) (tip : Tip), tip.status = TipStatus.published →
        (applyTipOp op tip).status = TipStatus.published) := by
  constructor
  · intro image viewMore tip hst him
    have hcond : (tip.status == TipStatus.published && tip.image.isSome) = false := by
      simp [hst]
    simp only [enrichTip, hcond, Bool.false_eq_true, if_false]
    refine ⟨trivial, ?_⟩
    cases image with
    | some i => rfl
    | none => simpa using him
  · intro op tip h
    cases op with
    | enrich i v =>
      simp only [applyTipOp, enrichTip]
      split
      · exact h
      · rfl
    | enrichImageOnly i =>
      simp only [applyTipOp]
      split
      · exact h
      · rfl
    | enrichBatchItem i => rfl
    | likesDelta d => exact h
    | savesDelta d => exact h
    | sharesDelta d => exact h
    | viewsBump => exact h

/-- C7 witness: a fresh draft tip is published with the fetched image,
and a published tip stays published under a further enrichment. -/
theorem c7_enrich_publishes_and_status_never_regresses_witness :
    (({ defaultTip with id := "t1" } : Tip).status = TipStatus.draft ∧
      ({ defaultTip with id := "t1" } : Tip).image = none ∧
      (enrichTip (some ⟨"https://img"⟩) none
          { defaultTip with id := "t1" }).2.status = TipStatus.published ∧
      (enrichTip (some ⟨"https://img"⟩) none
          { defaultTip with id := "t1" }).2.image = some ⟨"https://img"⟩) ∧
    (applyTipOp (.enrich none none)
        { defaultTip with status := TipStatus.published }).status =
      TipStatus.published :=
  ⟨⟨rfl, rfl,
      (c7_enrich_publishes_and_status_never_regresses.1 (some ⟨"https://img"⟩)
        none { defaultTip with id := "t1" } rfl rfl).1,
      (c7_enrich_publishes_and_status_never_regresses.1 (some ⟨"https://img"⟩)
        none { defaultTip with id := "t1" } rfl rfl).2⟩,
    c7_enrich_publishes_and_status_never_regresses.2 (.enrich none none)
      { defaultTip with status := TipStatus.published } rfl⟩

/-- Lazy user creation does not touch the tips collection. -/
theorem ensureUser_tips (db : DB) (u : String) :
    (ensureUser db u).tips = db.tips := by
  unfold ensureUser
  split <;> rfl

/-- Lazy user creation does not touch the actions collection. -/
theorem ensureUser_actions (db : DB) (u : String) :
    (ensureUser db u).actions = db.actions := by
  unfold ensureUser
  split <;> rfl

/-- Lazy user creation is the identity when the user exists. -/
theorem ensureUser_of_mem (db : DB) (u : String)
    (h : (db.users.any fun x => x.id == u) = true) :
    ensureUser db u = db := by
  unfold ensureUser
  rw [if_pos h]

/-- Tip lookup commutes with an id-preserving update map. -/
theorem findTip_map (tips : List Tip) (tid : String) (f : Tip → Tip)
    (hf : ∀ t, (f t).id = t.id) :
    (tips.map f).find? (fun t => t.id == tid) =
      (tips.find? fun t => t.id == tid).map f :=
  find?_map_key f _ (fun a => by rw [hf]) tips

/-- C8 counterexample: with an existing (u1, tip-1, share) Action, a
share request through the general toggle endpoint deletes the Action and
decrements `sharesCount` — refuting the claim that no request ever
deletes a share Action or decrements the counter. -/
theorem c8_toggle_endpoint_removes_share :
    (toggleAction
        ⟨[{ defaultTip with id := "tip-1", status := .published, sharesCount := 1 }],
          [⟨"u1", "u1@anonymous.local", none⟩], [⟨"u1", "tip-1", "share"⟩], []⟩
        "u1" "tip-1" "share").1 = ToggleResult.removed ∧
      (toggleAction
        ⟨[{ defaultTip with id := "tip-1", status := .published, sharesCount := 1 }],
          [⟨"u1", "u1@anonymous.local", none⟩], [⟨"u1", "tip-1", "share"⟩], []⟩
        "u1" "tip-1" "share").2.actions = [] ∧
      (toggleAction
        ⟨[{ defaultTip with id := "tip-1", status := .published, sharesCount := 1 }],
          [⟨"u1", "u1@anonymous.local", none⟩], [⟨"u1", "tip-1", "share"⟩], []⟩
        "u1" "tip-1" "share").2.tips.map Tip.sharesCount = [0] := by
  refine ⟨by decide, by decide, by decide⟩

/-- C8 (amended): the dedicated share endpoint is add-only and
idempotent — the first share for a (user, tip) creates the Action and
increments `sharesCount` by one, a repeated share leaves the store
unchanged, and no invocation of this endpoint removes an Action or
decreases a counter; the general toggle endpoint, however, also accepts
`share` and removes the Action and decrements (see the counterexample
theorem). -/
theorem c8_share_endpoint_add_only_idempotent :
    (∀ (db : DB) (u tid : String) (tip : Tip),
        findTip db tid = some tip →
        (db.actions.find? fun a =>
          a.userId == u && a.tipId == tid && a.actionType == "share") = none →
        (sharePost db u tid).1 = ShareResult.added ∧
          (sharePost db u tid).2.actions =
            ⟨u, tid, "share"⟩ :: db.actions ∧
          findTip (sharePost db u tid).2 tid =
            some { tip with sharesCount := tip.sharesCount + 1 }) ∧
    (∀ (db : DB) (u tid : String) (tip : Tip) (a : ActionRow),
        findTip db tid = some tip →
        (db.users.any fun x => x.id == u) = true →
        (db.actions.find? fun x =>
          x.userId == u && x.tipId == tid && x.actionType == "share") = some a →
        sharePost db u tid = (ShareResult.alreadyShared, db)) ∧
    (∀ (db : DB) (u tid : String),
        (∃ pre, (sharePost db u tid).2.actions = pre ++ db.actions) ∧
        ∀ (tid2 : String) (tip : Tip), findTip db tid2 = some tip →
          ∃ tip2, findTip (sharePost db u tid).2 tid2 = some tip2 ∧
            tip.sharesCount ≤ tip2.sharesCount) := by
  refine ⟨?_, ?_, ?_⟩
  · intro db u tid tip hfind hnone
    have hfind' : db.tips.find? (fun t => t.id == tid) = some tip := hfind
    have hid : tip.id = tid := by
      have hp := List.find?_some hfind'
      simpa using hp
    refine ⟨?_, ?_, ?_⟩
    · simp [sharePost, hfind, ensureUser_actions, hnone]
    · simp [sharePost, hfind, ensureUser_actions, hnone]
    · simp only [sharePost, hfind, ensureUser_actions, hnone]
      show ((ensureUser db u).tips.map fun t =>
          if t.id == tid then { t with sharesCount := t.sharesCount + 1 } else t).find?
            (fun t => t.id == tid) = _
      rw [ensureUser_tips,
        findTip_map db.tips tid _ (fun t => by cases h : t.id == tid <;> simp [h]),
        hfind']
      simp [hid]
  · intro db u tid tip a hfind husers hact
    simp only [sharePost, hfind, ensureUser_of_mem db u husers, hact]
  · intro db u tid
    cases hfind : findTip db tid with
    | none => exact ⟨⟨[], by simp [sharePost, hfind]⟩, fun tid2 tip h2 =>
        ⟨tip, by simp [sharePost, hfind, h2], le_refl _⟩⟩
    | some tip0 =>
      cases hact : db.actions.find? fun x =>
          x.userId == u && x.tipId == tid && x.actionType == "share" with
      | some a =>
        refine ⟨⟨[], ?_⟩, fun tid2 tip h2 => ⟨tip, ?_, le_refl _⟩⟩
        · simp only [sharePost, hfind, ensureUser_actions, hact]
          simp
        · simp only [sharePost, hfind, ensureUser_actions, hact]
          have h2' : db.tips.find? (fun t => t.id == tid2) = some tip := h2
          show (ensureUser db u).tips.find? (fun t => t.id == tid2) = _
          rw [ensureUser_tips, h2']
      | none =>
        refine ⟨⟨[⟨u, tid, "share"⟩], ?_⟩, fun tid2 tip h2 => ?_⟩
        · simp only [sharePost, hfind, ensureUser_actions, hact]
          rfl
        · simp only [sharePost, hfind, ensureUser_actions, hact]
          have h2' : db.tips.find? (fun t => t.id == tid2) = some tip := h2
          show ∃ tip2, ((ensureUser db u).tips.map fun t =>
              if t.id == tid then { t with sharesCount := t.sharesCount + 1 }
              else t).find? (fun t => t.id == tid2) = some tip2 ∧
              tip.sharesCount ≤ tip2.sharesCount
          rw [ensureUser_tips,
            findTip_map db.tips tid2 _
              (fun t => by cases h : t.id == tid <;> simp [h]),
            h2']
          refine ⟨_, rfl, ?_⟩
          by_cases h : tip.id = tid <;> simp [h]

/-- C8 witness: first share adds and increments, repeat is a no-op, and
the add-only/monotonicity clause at a concrete store. -/
theorem c8_share_endpoint_add_only_idempotent_witness :
    (findTip ⟨[{ defaultTip with id := "tip-1" }], [], [], []⟩ "tip-1" =
        some { defaultTip with id := "tip-1" } ∧
      (sharePost ⟨[{ defaultTip with id := "tip-1" }], [], [], []⟩ "u1" "tip-1").1 =
        ShareResult.added ∧
      findTip (sharePost ⟨[{ defaultTip with id := "tip-1" }], [], [], []⟩
            "u1" "tip-1").2 "tip-1" =
        some { defaultTip with id := "tip-1", sharesCount := 1 }) ∧
    sharePost
        ⟨[{ defaultTip with id := "tip-1", sharesCount := 1 }],
          [⟨"u1", "u1@anonymous.local", none⟩], [⟨"u1", "tip-1", "share"⟩], []⟩
        "u1" "tip-1" =
      (ShareResult.alreadyShared,
        ⟨[{ defaultTip with id := "tip-1", sharesCount := 1 }],
          [⟨"u1", "u1@anonymous.local", none⟩], [⟨"u1", "tip-1", "share"⟩], []⟩) ∧
    (∃ pre,
      (sharePost ⟨[{ defaultTip with id := "tip-1" }], [], [], []⟩
          "u1" "tip-1").2.actions = pre ++ [] ) :=
  ⟨⟨by decide,
      (c8_share_endpoint_add_only_idempotent.1
        ⟨[{ defaultTip with id := "tip-1" }], [], [], []⟩ "u1" "tip-1"
        { defaultTip with id := "tip-1" } (by decide) rfl).1,
      (c8_share_endpoint_add_only_idempotent.1
        ⟨[{ defaultTip with id := "tip-1" }], [], [], []⟩ "u1" "tip-1"
        { defaultTip with id := "tip-1" } (by decide) rfl).2.2⟩,
    c8_share_endpoint_add_only_idempotent.2.1
      ⟨[{ defaultTip with id := "tip-1", sharesCount := 1 }],
        [⟨"u1", "u1@anonymous.local", none⟩], [⟨"u1", "tip-1", "share"⟩], []⟩
      "u1" "tip-1" { defaultTip with id := "tip-1", sharesCount := 1 }
      ⟨"u1", "tip-1", "share"⟩ (by decide) (by decide) (by decide),
    (c8_share_endpoint_add_only_idempotent.2.2
      ⟨[{ defaultTip with id := "tip-1" }], [], [], []⟩ "u1" "tip-1").1⟩

/-- Prepending a like on this tip raises its like count by one. -/
theorem likeCount_cons_pos (x : ActionRow) (xs : List ActionRow) (tid : String)
    (h : (x.tipId == tid && x.actionType == "like") = true) :
    likeCount (x :: xs) tid = likeCount xs tid + 1 := by
  simp [likeCount, List.filter_cons, h]

/-- Prepending anything else leaves the like count unchanged. -/
theorem likeCount_cons_neg (x : ActionRow) (xs : List ActionRow) (tid : String)
    (h : (x.tipId == tid && x.actionType == "like") = false) :
    likeCount (x :: xs) tid = likeCount xs tid := by
  simp [likeCount, List.filter_cons, h]

/-- Erasing the first match of a predicate that entails a like on this
tip lowers its like count by exactly one. -/
theorem likeCount_eraseP_pos (p : ActionRow → Bool) (tid : String)
    (hp : ∀ x, p x = true → (x.tipId == tid && x.actionType == "like") = true) :
    ∀ acts : List ActionRow, acts.any p = true →
      likeCount acts tid = likeCount (acts.eraseP p) tid + 1 := by
  intro acts
  induction acts with
  | nil => intro hAny; simp at hAny
  | cons x xs ih =>
    intro hAny
    cases hx : p x with
    | false =>
      have hxs : xs.any p = true := by simpa [List.any_cons, hx] using hAny
      rw [List.eraseP_cons_of_neg (by simp [hx])]
      cases hq : (x.tipId == tid && x.actionType == "like") with
      | false =>
        rw [likeCount_cons_neg x xs tid hq, likeCount_cons_neg x _ tid hq, ih hxs]
      | true =>
        rw [likeCount_cons_pos x xs tid hq, likeCount_cons_pos x _ tid hq, ih hxs]
    | true =>
      rw [List.eraseP_cons_of_pos hx, likeCount_cons_pos x xs tid (hp x hx)]

/-- Erasing the first match of a predicate targeting another tip (or
another kind) leaves this like count unchanged. -/
theorem likeCount_eraseP_neg (p : ActionRow → Bool) (tid : String)
    (hp : ∀ x, p x = true → (x.tipId == tid && x.actionType == "like") = false) :
    ∀ acts : List ActionRow, likeCount (acts.eraseP p) tid = likeCount acts tid := by
  intro acts
  induction acts with
  | nil => rfl
  | cons x xs ih =>
    cases hx : p x with
    | false =>
      rw [List.eraseP_cons_of_neg (by simp [hx])]
      cases hq : (x.tipId == tid && x.actionType == "like") with
      | false => rw [likeCount_cons_neg x _ tid hq, likeCount_cons_neg x xs tid hq, ih]
      | true => rw [likeCount_cons_pos x _ tid hq, likeCount_cons_pos x xs tid hq, ih]
    | true =>
      rw [List.eraseP_cons_of_pos hx, likeCount_cons_neg x xs tid (hp x hx)]

/-- One like-toggle request keeps the counter invariant. -/
theorem toggleLike_preserves (db : DB) (u tid : String)
    (h : likeConsistent db = true) :
    likeConsistent (toggleAction db u tid "like").2 = true := by
  have hall : ∀ x ∈ db.tips,
      x.likesCount = ((likeCount db.actions x.id : ℕ) : Int) := by
    simpa [likeConsistent] using h
  have hvalid :
      (!(("like" : String) == "like" || ("like" : String) == "save" ||
        ("like" : String) == "share")) = false := by decide
  rw [toggleAction, hvalid]
  simp only [Bool.false_eq_true, if_false]
  cases hft : findTip db tid with
  | none => exact h
  | some tip0 =>
    simp only [ensureUser_actions, ensureUser_tips]
    cases hact : db.actions.find? fun a =>
        a.userId == u && a.tipId == tid && a.actionType == "like" with
    | none =>
      simp only [likeConsistent]
      rw [List.all_eq_true]
      intro t ht
      obtain ⟨t0, ht0, rfl⟩ := List.mem_map.mp ht
      have h0 := hall t0 ht0
      by_cases hidp : t0.id = tid
      · have hb : (t0.id == tid) = true := by simp [hidp]
        simp only [hb, if_true, counterBump,
          show (("like" : String) == "like") = true from rfl]
        rw [beq_iff_eq]
        show t0.likesCount + 1 =
          (likeCount (⟨u, tid, "like"⟩ :: db.actions) t0.id : Int)
        rw [likeCount_cons_pos _ _ _ (by simp [hidp])]
        omega
      · have hb : (t0.id == tid) = false := by simp [hidp]
        simp only [hb, Bool.false_eq_true, if_false]
        rw [beq_iff_eq]
        show t0.likesCount =
          (likeCount (⟨u, tid, "like"⟩ :: db.actions) t0.id : Int)
        rw [likeCount_cons_neg _ _ _
          (by simp; exact fun hh => hidp hh.symm)]
        exact h0
    | some a =>
      have hmem := List.mem_of_find?_eq_some hact
      have hpa := List.find?_some hact
      have hany : (db.actions.any fun a =>
          a.userId == u && a.tipId == tid && a.actionType == "like") = true :=
        List.any_eq_true.mpr ⟨a, hmem, hpa⟩
      simp only [likeConsistent]
      rw [List.all_eq_true]
      intro t ht
      obtain ⟨t0, ht0, rfl⟩ := List.mem_map.mp ht
      have h0 := hall t0 ht0
      by_cases hidp : t0.id = tid
      · have herase := likeCount_eraseP_pos
          (fun a => a.userId == u && a.tipId == tid && a.actionType == "like")
          t0.id
          (fun x hx => by
            simp only [Bool.and_eq_true, beq_iff_eq] at hx
            simp [hx.1.2, hx.2, hidp])
          db.actions hany
        have hb : (t0.id == tid) = true := by simp [hidp]
        simp only [hb, if_true, counterBump,
          show (("like" : String) == "like") = true from rfl]
        rw [beq_iff_eq]
        show t0.likesCount + (-1) =
          (likeCount (db.actions.eraseP fun a =>
            a.userId == u && a.tipId == tid && a.actionType == "like") t0.id : Int)
        omega
      · have herase := likeCount_eraseP_neg
          (fun a => a.userId == u && a.tipId == tid && a.actionType == "like")
          t0.id
          (fun x hx => by
            simp only [Bool.and_eq_true, beq_iff_eq] at hx
            simp [hx.1.2, hx.2]
            exact fun hh => hidp hh.symm)
          db.actions
        have hb : (t0.id == tid) = false := by simp [hidp]
        simp only [hb, Bool.false_eq_true, if_false]
        rw [beq_iff_eq]
        show t0.likesCount =
          (likeCount (db.actions.eraseP fun a =>
            a.userId == u && a.tipId == tid && a.actionType == "like") t0.id : Int)
        omega

/-- C9: starting from a store where every tip's `likesCount` equals the
number of existing like Actions for it, any sequence of sequentially
applied like-toggle requests (any users, any tips) preserves that
equality — the counter and Action existence never diverge. -/
theorem c9_like_toggles_keep_counter_consistent (reqs : List (String × String))
    (db : DB) (h : likeConsistent db = true) :
    likeConsistent
      (reqs.foldl (fun s r => (toggleAction s r.1 r.2 "like").2) db) = true := by
  induction reqs generalizing db with
  | nil => exact h
  | cons r rs ih =>
    simp only [List.foldl_cons]
    exact ih ((toggleAction db r.1 r.2 "like").2) (toggleLike_preserves db r.1 r.2 h)

/-- C9 witness: three toggles (like, unlike, like by another user) on a
concrete one-tip store. -/
theorem c9_like_toggles_keep_counter_consistent_witness :
    likeConsistent ⟨[{ defaultTip with id := "t1" }], [], [], []⟩ = true ∧
      likeConsistent
        ([("u1", "t1"), ("u1", "t1"), ("u2", "t1")].foldl
          (fun s r => (toggleAction s r.1 r.2 "like").2)
          ⟨[{ defaultTip with id := "t1" }], [], [], []⟩) = true :=
  ⟨by decide,
    c9_like_toggles_keep_counter_consistent [("u1", "t1"), ("u1", "t1"), ("u2", "t1")]
      ⟨[{ defaultTip with id := "t1" }], [], [], []⟩ (by decide)⟩

/-- C10: a successful GET of a tip by id responds with the pre-read
fields and `views_count` equal to the stored count plus one, increments
exactly that tip's `viewsCount` (every tip with a different id is kept
verbatim; users, actions and the push ledger are untouched), and does
so with no condition on the lifecycle status — in particular a draft
tip is returned and counted although the feed filter excludes it. -/
theorem c10_tip_detail_increments_exactly_views (db : DB) (tid : String)
    (tip : Tip) (h : findTip db tid = some tip) :
    (getTipDetail db tid).1 =
        some
          { id := tip.id, tip_text := tip.tipText, tip_summary := tip.tipSummary,
            tip_detail := tip.tipDetail, code_snippet := tip.codeSnippet,
            category := tip.category, tags := tip.tags, image := tip.image,
            likes_count := tip.likesCount, saves_count := tip.savesCount,
            views_count := tip.viewsCount + 1, source := tip.source,
            ai_model := tip.aiModel } ∧
      findTip (getTipDetail db tid).2 tid =
        some { tip with viewsCount := tip.viewsCount + 1 } ∧
      (∀ t ∈ db.tips, t.id ≠ tid → t ∈ (getTipDetail db tid).2.tips) ∧
      (getTipDetail db tid).2.users = db.users ∧
      (getTipDetail db tid).2.actions = db.actions ∧
      (getTipDetail db tid).2.dailyPushes = db.dailyPushes ∧
      (tip.status = TipStatus.draft → tip ∉ feedTips db) := by
  have h' : db.tips.find? (fun t => t.id == tid) = some tip := h
  have hid : tip.id = tid := by
    have hp := List.find?_some h'
    simpa using hp
  simp only [getTipDetail, h]
  refine ⟨trivial, ?_, ?_, trivial, trivial, trivial, ?_⟩
  · show (db.tips.map fun t =>
        if t.id == tid then { t with viewsCount := t.viewsCount + 1 } else t).find?
          (fun t => t.id == tid) = _
    rw [findTip_map db.tips tid _ (fun t => by cases hc : t.id == tid <;> simp [hc]),
      h']
    simp [hid]
  · intro t ht hne
    refine List.mem_map.mpr ⟨t, ht, ?_⟩
    have hc : (t.id == tid) = false := by
      simp [hne]
    simp [hc]
  · intro hdraft
    simp [feedTips, List.mem_filter, hdraft]

/-- C10 witness: a draft tip at a concrete store. -/
theorem c10_tip_detail_increments_exactly_views_witness :
    findTip ⟨[{ defaultTip with id := "t9", viewsCount := 6 }], [], [], []⟩ "t9" =
        some { defaultTip with id := "t9", viewsCount := 6 } ∧
      (getTipDetail ⟨[{ defaultTip with id := "t9", viewsCount := 6 }], [], [], []⟩
          "t9").1 =
        some
          { id := "t9", tip_text := "", tip_summary := "", tip_detail := "",
            code_snippet := "", category := "", tags := [], image := none,
            likes_count := 0, saves_count := 0, views_count := 7, source := "",
            ai_model := "" } ∧
      findTip (getTipDetail
          ⟨[{ defaultTip with id := "t9", viewsCount := 6 }], [], [], []⟩ "t9").2
          "t9" =
        some { defaultTip with id := "t9", viewsCount := 7 } ∧
      (({ defaultTip with id := "t9", viewsCount := 6 } : Tip).status =
          TipStatus.draft →
        ({ defaultTip with id := "t9", viewsCount := 6 } : Tip) ∉
          feedTips ⟨[{ defaultTip with id := "t9", viewsCount := 6 }], [], [], []⟩) :=
  ⟨by decide,
    (c10_tip_detail_increments_exactly_views
      ⟨[{ defaultTip with id := "t9", viewsCount := 6 }], [], [], []⟩ "t9"
      { defaultTip with id := "t9", viewsCount := 6 } (by decide)).1,
    (c10_tip_detail_increments_exactly_views
      ⟨[{ defaultTip with id := "t9", viewsCount := 6 }], [], [], []⟩ "t9"
      { defaultTip with id := "t9", viewsCount := 6 } (by decide)).2.1,
    (c10_tip_detail_increments_exactly_views
      ⟨[{ defaultTip with id := "t9", viewsCount := 6 }], [], [], []⟩ "t9"
      { defaultTip with id := "t9", viewsCount := 6 } (by decide)).2.2.2.2.2.2⟩

end TlDev
